import Mathlib

/-!
Verification of the `ndless-rs` repository's time module
(`src/ndless/src/file_io/time.rs`) and SDL video module
(`src/ndless-sdl/src/video.rs`) against its natural-language specification.

The time module wraps `crate::file_io::sys::time`, which is repository code
that is not part of the provided sources; following the specification ("a few
dozen lines of saturating/checked arithmetic over an opaque clock reading,
already fully specified by the wrapped standard's documentation"), the sys
layer is modelled from the wrapped standard library's documented contract.
All definitions translated from the provided sources carry the source names.
-/

namespace NdlessTime

def nanosPerSec : Nat := 1000000000

def u64Size : Nat := 2 ^ 64

/-- Modelled from the spec: `core::time::Duration` is the wrapped standard
library's duration type (whole seconds plus a sub-second nanosecond count),
re-exported by the time module. A machine-level `u64`/`u32` pair is embedded
as a pair of naturals; the standard type's internal invariant is
`Duration.valid` below. -/
structure Duration where
  secs : Nat
  nanos : Nat
deriving DecidableEq, Repr

/-- The representation invariant of the wrapped standard `Duration`:
seconds fit in a `u64` and the nanosecond part is a sub-second count. -/
def Duration.valid (d : Duration) : Prop :=
  d.secs < u64Size ∧ d.nanos < nanosPerSec

instance (d : Duration) : Decidable d.valid := by
  unfold Duration.valid; infer_instance

/-- The derived lexicographic order on `(secs, nanos)`, as produced by the
standard `#[derive(PartialOrd, Ord)]` on `Duration`. -/
def Duration.le (a b : Duration) : Prop :=
  a.secs < b.secs ∨ (a.secs = b.secs ∧ a.nanos ≤ b.nanos)

instance (a b : Duration) : Decidable (Duration.le a b) := by
  unfold Duration.le; infer_instance

/-- Strict version of the derived lexicographic order on `Duration`. -/
def Duration.lt (a b : Duration) : Prop :=
  a.secs < b.secs ∨ (a.secs = b.secs ∧ a.nanos < b.nanos)

instance (a b : Duration) : Decidable (Duration.lt a b) := by
  unfold Duration.lt; infer_instance

/-- Modelled from the spec: the wrapped standard `Duration::checked_add`,
with `u64` overflow made explicit against `u64Size`. -/
def Duration.checked_add (a b : Duration) : Option Duration :=
  if a.secs + b.secs < u64Size then
    let secs := a.secs + b.secs
    let nanos := a.nanos + b.nanos
    if nanos ≥ nanosPerSec then
      if secs + 1 < u64Size then some ⟨secs + 1, nanos - nanosPerSec⟩ else none
    else
      some ⟨secs, nanos⟩
  else
    none

/-- Modelled from the spec: the wrapped standard `Duration::checked_sub`
(borrow subtraction on the seconds/nanoseconds pair). -/
def Duration.checked_sub (a b : Duration) : Option Duration :=
  if b.secs ≤ a.secs then
    if b.nanos ≤ a.nanos then
      some ⟨a.secs - b.secs, a.nanos - b.nanos⟩
    else if 1 ≤ a.secs - b.secs then
      some ⟨a.secs - b.secs - 1, a.nanos + nanosPerSec - b.nanos⟩
    else
      none
  else
    none

/-- Truncated borrow subtraction on durations; it agrees with
`Duration.checked_sub` whenever `Duration.le b a`. -/
def Duration.subD (a b : Duration) : Duration :=
  if b.nanos ≤ a.nanos then
    ⟨a.secs - b.secs, a.nanos - b.nanos⟩
  else
    ⟨a.secs - b.secs - 1, a.nanos + nanosPerSec - b.nanos⟩

/-- Modelled from the spec: `crate::file_io::sys::time::Instant`, the "opaque
clock reading" of the platform's monotonic clock, represented as the duration
since an arbitrary fixed origin. -/
structure SysInstant where
  t : Duration
deriving DecidableEq, Repr

/-- Modelled from the spec: the sys layer's `checked_sub_instant`, the wrapped
standard's documented contract — `Some` of the difference when `b` is not
later than `a`, `None` otherwise. -/
def SysInstant.checked_sub_instant (a b : SysInstant) : Option Duration :=
  if Duration.le b.t a.t then some (Duration.subD a.t b.t) else none

/-- Modelled from the spec: the sys layer's `checked_add_duration`. -/
def SysInstant.checked_add_duration (a : SysInstant) (d : Duration) : Option SysInstant :=
  (Duration.checked_add a.t d).map SysInstant.mk

/-- Modelled from the spec: the sys layer's `checked_sub_duration`. -/
def SysInstant.checked_sub_duration (a : SysInstant) (d : Duration) : Option SysInstant :=
  (Duration.checked_sub a.t d).map SysInstant.mk

/-- Modelled from the spec: `crate::file_io::sys::time::SystemTime`, the
system clock reading, represented as the duration since the epoch. -/
structure SysSystemTime where
  t : Duration
deriving DecidableEq, Repr

/-- Modelled from the spec: the sys layer's `sub_time`, the wrapped standard's
documented contract — `Ok` of the difference when `b` is not later than `a`,
and otherwise `Err` of the difference in the opposite direction. -/
def SysSystemTime.sub_time (a b : SysSystemTime) : Except Duration Duration :=
  if Duration.le b.t a.t then Except.ok (Duration.subD a.t b.t)
  else Except.error (Duration.subD b.t a.t)

/-- Modelled from the spec: the sys layer's `checked_add_duration`. -/
def SysSystemTime.checked_add_duration (a : SysSystemTime) (d : Duration) :
    Option SysSystemTime :=
  (Duration.checked_add a.t d).map SysSystemTime.mk

/-- Modelled from the spec: the sys layer's `checked_sub_duration`. -/
def SysSystemTime.checked_sub_duration (a : SysSystemTime) (d : Duration) :
    Option SysSystemTime :=
  (Duration.checked_sub a.t d).map SysSystemTime.mk

/-- `pub struct Instant(time::Instant)` from `time.rs`. -/
structure Instant where
  inner : SysInstant
deriving DecidableEq, Repr

/-- `pub struct SystemTime(time::SystemTime)` from `time.rs`. -/
structure SystemTime where
  inner : SysSystemTime
deriving DecidableEq, Repr

/-- `pub struct SystemTimeError(Duration)` from `time.rs`. -/
structure SystemTimeError where
  dur : Duration
deriving DecidableEq, Repr

/-- `SystemTimeError::duration` from `time.rs`: returns the wrapped duration. -/
def SystemTimeError.duration (e : SystemTimeError) : Duration := e.dur

/-- The derived order on `Instant` (it wraps the sys reading). -/
def Instant.le (a b : Instant) : Prop := Duration.le a.inner.t b.inner.t

instance (a b : Instant) : Decidable (Instant.le a b) := by
  unfold Instant.le; infer_instance

/-- The derived order on `SystemTime` (it wraps the sys reading). -/
def SystemTime.le (a b : SystemTime) : Prop := Duration.le a.inner.t b.inner.t

instance (a b : SystemTime) : Decidable (SystemTime.le a b) := by
  unfold SystemTime.le; infer_instance

/-- `Instant::duration_since` from `time.rs`:
`self.0.checked_sub_instant(&earlier.0).expect(..)`. The `expect` panic is
embedded as `none`. -/
def Instant.duration_since (self earlier : Instant) : Option Duration :=
  self.inner.checked_sub_instant earlier.inner

/-- `Instant::checked_duration_since` from `time.rs`:
`self.0.checked_sub_instant(&earlier.0)`. -/
def Instant.checked_duration_since (self earlier : Instant) : Option Duration :=
  self.inner.checked_sub_instant earlier.inner

/-- `Instant::saturating_duration_since` from `time.rs`:
`self.checked_duration_since(earlier).unwrap_or_else(|| Duration::new(0, 0))`. -/
def Instant.saturating_duration_since (self earlier : Instant) : Duration :=
  (self.checked_duration_since earlier).getD ⟨0, 0⟩

/-- `Instant::checked_add` from `time.rs`:
`self.0.checked_add_duration(&duration).map(Instant)`. -/
def Instant.checked_add (self : Instant) (duration : Duration) : Option Instant :=
  (self.inner.checked_add_duration duration).map Instant.mk

/-- `Instant::checked_sub` from `time.rs`:
`self.0.checked_sub_duration(&duration).map(Instant)`. -/
def Instant.checked_sub (self : Instant) (duration : Duration) : Option Instant :=
  (self.inner.checked_sub_duration duration).map Instant.mk

/-- `impl Add<Duration> for Instant` from `time.rs`:
`self.checked_add(other).expect(..)`; the panic is embedded as `none`. -/
def Instant.addDuration (self : Instant) (other : Duration) : Option Instant :=
  self.checked_add other

/-- `impl AddAssign<Duration> for Instant` from `time.rs`:
`*self = *self + other`, embedded by returning the assigned value. -/
def Instant.addAssignDuration (self : Instant) (other : Duration) : Option Instant :=
  self.addDuration other

/-- `impl Sub<Duration> for Instant` from `time.rs`:
`self.checked_sub(other).expect(..)`; the panic is embedded as `none`. -/
def Instant.subDuration (self : Instant) (other : Duration) : Option Instant :=
  self.checked_sub other

/-- `impl SubAssign<Duration> for Instant` from `time.rs`:
`*self = *self - other`, embedded by returning the assigned value. -/
def Instant.subAssignDuration (self : Instant) (other : Duration) : Option Instant :=
  self.subDuration other

/-- `SystemTime::duration_since` from `time.rs`:
`self.0.sub_time(&earlier.0).map_err(SystemTimeError)`. -/
def SystemTime.duration_since (self earlier : SystemTime) :
    Except SystemTimeError Duration :=
  (self.inner.sub_time earlier.inner).mapError SystemTimeError.mk

/-- `SystemTime::elapsed` from `time.rs`:
`SystemTime::now().duration_since(*self)`. The ambient clock value returned
by `SystemTime::now()` is passed explicitly. -/
def SystemTime.elapsed (nowVal self : SystemTime) : Except SystemTimeError Duration :=
  nowVal.duration_since self

/-- `SystemTime::checked_add` from `time.rs`. -/
def SystemTime.checked_add (self : SystemTime) (duration : Duration) : Option SystemTime :=
  (self.inner.checked_add_duration duration).map SystemTime.mk

/-- `SystemTime::checked_sub` from `time.rs`. -/
def SystemTime.checked_sub (self : SystemTime) (duration : Duration) : Option SystemTime :=
  (self.inner.checked_sub_duration duration).map SystemTime.mk

/-- `impl Add<Duration> for SystemTime` from `time.rs`:
`self.checked_add(dur).expect(..)`; the panic is embedded as `none`. -/
def SystemTime.addDuration (self : SystemTime) (dur : Duration) : Option SystemTime :=
  self.checked_add dur

/-- `impl AddAssign<Duration> for SystemTime` from `time.rs`. -/
def SystemTime.addAssignDuration (self : SystemTime) (other : Duration) : Option SystemTime :=
  self.addDuration other

/-- `impl Sub<Duration> for SystemTime` from `time.rs`:
`self.checked_sub(dur).expect(..)`; the panic is embedded as `none`. -/
def SystemTime.subDuration (self : SystemTime) (dur : Duration) : Option SystemTime :=
  self.checked_sub dur

/-- `impl SubAssign<Duration> for SystemTime` from `time.rs`. -/
def SystemTime.subAssignDuration (self : SystemTime) (other : Duration) : Option SystemTime :=
  self.subDuration other

/-- Modelled from the spec: the platform's monotonic clock read by
`Instant::now` ("a monotonically nondecreasing clock", "an opaque clock
reading"). A trace assigns to each successive call of `Instant::now` the sys
reading it observes; monotonicity is the documented clock guarantee. -/
structure ClockTrace where
  read : Nat → Duration
  mono : ∀ m n : Nat, m ≤ n → Duration.le (read m) (read n)

/-- `Instant::now` from `time.rs` (`Instant(time::Instant::now())`), the
`k`-th call reading from the clock trace `c`. -/
def Instant.nowAt (c : ClockTrace) (k : Nat) : Instant :=
  Instant.mk (SysInstant.mk (c.read k))

end NdlessTime

namespace NdlessSDL

/-- Modelled from the spec: `crate::Rect` (defined outside the provided
sources) mirrors `SDL_Rect`: a position (`i16` pair) and a size (`u16`
pair). -/
structure Rect where
  x : Int
  y : Int
  w : Nat
  h : Nat
deriving DecidableEq, Repr

/-- `ll::SDL_Color` from `video.rs`: four `u8` fields `r`, `g`, `b`,
`unused`. -/
structure SDL_Color where
  r : Nat
  g : Nat
  b : Nat
  unused : Nat
deriving DecidableEq, Repr

/-- `enum Color` from `video.rs`. -/
inductive Color where
  | RGB : Nat → Nat → Nat → Color
  | RGBA : Nat → Nat → Nat → Nat → Color
deriving DecidableEq, Repr

/-- `Color::from_struct` from `video.rs`: `RGB(c.r, c.g, c.b)`. -/
def Color.from_struct (c : SDL_Color) : Color := Color.RGB c.r c.g c.b

/-- `Color::to_struct` from `video.rs`. -/
def Color.to_struct : Color → SDL_Color
  | Color.RGB r g b => ⟨r, g, b, 0⟩
  | Color.RGBA r g b _ => ⟨r, g, b, 0⟩

/-- `enum SurfaceFlag` from `video.rs`. -/
inductive SurfaceFlag where
  | SWSurface
  | HWSurface
  | AsyncBlit
  | SrcColorKey
  | SrcAlpha
  | RLEAccel
deriving DecidableEq, Repr

/-- The discriminant of each `SurfaceFlag`, as read by `flag as u32`. -/
def SurfaceFlag.val : SurfaceFlag → Nat
  | SurfaceFlag.SWSurface => 0x00000000
  | SurfaceFlag.HWSurface => 0x00000001
  | SurfaceFlag.AsyncBlit => 0x00000004
  | SurfaceFlag.SrcColorKey => 0x00001000
  | SurfaceFlag.SrcAlpha => 0x00010000
  | SurfaceFlag.RLEAccel => 0x00004000

/-- `enum VideoFlag` from `video.rs`. -/
inductive VideoFlag where
  | AnyFormat
  | HWPalette
  | DoubleBuf
  | Fullscreen
  | OpenGL
  | OpenGLBlit
  | Resizable
  | NoFrame
deriving DecidableEq, Repr

/-- The discriminant of each `VideoFlag`, as read by `flag as u32`
(`Fullscreen` is declared `0x8000_0000usize as isize` and casts back to
`0x8000_0000u32`). -/
def VideoFlag.val : VideoFlag → Nat
  | VideoFlag.AnyFormat => 0x10000000
  | VideoFlag.HWPalette => 0x20000000
  | VideoFlag.DoubleBuf => 0x40000000
  | VideoFlag.Fullscreen => 0x80000000
  | VideoFlag.OpenGL => 0x00000002
  | VideoFlag.OpenGLBlit => 0x0000000A
  | VideoFlag.Resizable => 0x00000010
  | VideoFlag.NoFrame => 0x00000020

/-- `enum VideoInfoFlag` from `video.rs`. -/
inductive VideoInfoFlag where
  | HWAvailable
  | WMAvailable
  | BlitHW
  | BlitHWColorkey
  | BlitHWAlpha
  | BlitSW
  | BlitSWColorkey
  | BlitSWAlpha
  | BlitFill
deriving DecidableEq, Repr

/-- The discriminant of each `VideoInfoFlag`, as read by `flag as u32`. -/
def VideoInfoFlag.val : VideoInfoFlag → Nat
  | VideoInfoFlag.HWAvailable => 0x00000001
  | VideoInfoFlag.WMAvailable => 0x00000002
  | VideoInfoFlag.BlitHW => 0x00000200
  | VideoInfoFlag.BlitHWColorkey => 0x00000400
  | VideoInfoFlag.BlitHWAlpha => 0x00000800
  | VideoInfoFlag.BlitSW => 0x00001000
  | VideoInfoFlag.BlitSWColorkey => 0x00002000
  | VideoInfoFlag.BlitSWAlpha => 0x00004000
  | VideoInfoFlag.BlitFill => 0x00008000

/-- The position of the single set bit of each `VideoInfoFlag` discriminant. -/
def VideoInfoFlag.bitIndex : VideoInfoFlag → Nat
  | VideoInfoFlag.HWAvailable => 0
  | VideoInfoFlag.WMAvailable => 1
  | VideoInfoFlag.BlitHW => 9
  | VideoInfoFlag.BlitHWColorkey => 10
  | VideoInfoFlag.BlitHWAlpha => 11
  | VideoInfoFlag.BlitSW => 12
  | VideoInfoFlag.BlitSWColorkey => 13
  | VideoInfoFlag.BlitSWAlpha => 14
  | VideoInfoFlag.BlitFill => 15

/-- The fixed array `flags` inside `wrap_video_info_flags` in `video.rs`. -/
def videoInfoFlagOrder : List VideoInfoFlag :=
  [VideoInfoFlag.HWAvailable, VideoInfoFlag.WMAvailable, VideoInfoFlag.BlitHW,
   VideoInfoFlag.BlitHWColorkey, VideoInfoFlag.BlitHWAlpha, VideoInfoFlag.BlitSW,
   VideoInfoFlag.BlitSWColorkey, VideoInfoFlag.BlitSWAlpha, VideoInfoFlag.BlitFill]

/-- `wrap_video_info_flags` from `video.rs`: filter the fixed array down to
the flags whose bit is set in `bitflags`. -/
def wrap_video_info_flags (bitflags : Nat) : List VideoInfoFlag :=
  videoInfoFlagOrder.filterMap (fun flag =>
    if bitflags &&& flag.val ≠ 0 then some flag else none)

/-- `struct Surface` from `video.rs`: a raw surface pointer (embedded as a
natural, `0` standing for the null pointer) plus the ownership flag. -/
structure Surface where
  raw : Nat
  owned : Bool
deriving DecidableEq, Repr

/-- `wrap_surface` from `video.rs`. -/
def wrap_surface (raw : Nat) (owned : Bool) : Surface := ⟨raw, owned⟩

/-- The value-level effect of Rust's `as c_int` cast from `isize`
(wrap into the signed 32-bit range). -/
def intToC (x : Int) : Int := (x + 2 ^ 31) % 2 ^ 32 - 2 ^ 31

/-- The ambient SDL library state reached through the C ABI declarations of
`video.rs`. The native calls are uninterpreted: each field records what the
corresponding foreign function would return, and `lastError` what
`crate::get_error()` would read. -/
structure SDLEnv where
  setVideoModeRaw : Int → Int → Int → Nat → Nat
  getVideoSurfaceRaw : Nat
  createRGBSurfaceRaw : Nat → Int → Int → Int → Nat → Nat → Nat → Nat → Nat
  videoModeOKRaw : Int → Int → Int → Nat → Int
  lastError : String

/-- Modelled from the spec: `crate::get_error()` (defined outside the
provided sources) reads SDL's current error string. -/
def get_error (env : SDLEnv) : String := env.lastError

/-- `set_video_mode` from `video.rs`. -/
def set_video_mode (env : SDLEnv) (w h bpp : Int)
    (surface_flags : List SurfaceFlag) (video_flags : List VideoFlag) :
    Except String Surface :=
  let flags := surface_flags.foldl (fun flags flag => flags ||| flag.val) 0
  let flags := video_flags.foldl (fun flags flag => flags ||| flag.val) flags
  let raw := env.setVideoModeRaw (intToC w) (intToC h) (intToC bpp) flags
  if raw = 0 then Except.error (get_error env)
  else Except.ok (wrap_surface raw false)

/-- `is_video_mode_ok` from `video.rs`. -/
def is_video_mode_ok (env : SDLEnv) (w h bpp : Int)
    (surface_flags : List SurfaceFlag) (video_flags : List VideoFlag) :
    Option Int :=
  let flags := surface_flags.foldl (fun flags flag => flags ||| flag.val) 0
  let flags := video_flags.foldl (fun flags flag => flags ||| flag.val) flags
  let bpp := env.videoModeOKRaw (intToC w) (intToC h) (intToC bpp) flags
  if bpp = 0 then none else some bpp

/-- `get_video_surface` from `video.rs`. -/
def get_video_surface (env : SDLEnv) : Except String Surface :=
  let raw := env.getVideoSurfaceRaw
  if raw = 0 then Except.error (get_error env)
  else Except.ok (wrap_surface raw false)

/-- `Surface::new` from `video.rs`. -/
def Surface.new (env : SDLEnv) (surface_flags : List SurfaceFlag)
    (width height bpp : Int) (rmask gmask bmask amask : Nat) :
    Except String Surface :=
  let flags := surface_flags.foldl (fun flags flag => flags ||| flag.val) 0
  let raw := env.createRGBSurfaceRaw flags (intToC width) (intToC height)
    (intToC bpp) rmask gmask bmask amask
  if raw = 0 then Except.error (get_error env)
  else Except.ok (Surface.mk raw true)

/-- A native SDL call recorded as an effect event. -/
inductive SDLCall where
  | setClipRect : Nat → Rect → SDLCall
deriving DecidableEq, Repr

/-- `Surface::get_clip_rect` from `video.rs`: builds the all-zero rectangle,
calls `SDL_SetClipRect` with it, and returns it. `clipRectOf` models the
`clip_rect` actually stored in each native `SDL_Surface`; the function never
reads it. The returned pair is the result together with the trace of native
calls performed. -/
def Surface.get_clip_rect (s : Surface) (clipRectOf : Nat → Rect) :
    Rect × List SDLCall :=
  let rect : Rect := ⟨0, 0, 0, 0⟩
  (rect, [SDLCall.setClipRect s.raw rect])

/-- Folding bitwise OR over any list of values below `2 ^ 32`, starting from
a value below `2 ^ 32`, stays below `2 ^ 32`. -/
theorem foldl_or_lt (l : List Nat) (init : Nat) (hinit : init < 2 ^ 32)
    (hl : ∀ v ∈ l, v < 2 ^ 32) :
    l.foldl (fun a v => a ||| v) init < 2 ^ 32 := by
  induction l generalizing init with
  | nil => exact hinit
  | cons x xs ih =>
      exact ih (init ||| x) (Nat.or_lt_two_pow hinit (hl x (List.mem_cons_self x xs)))
        (fun v hv => hl v (List.mem_cons_of_mem x hv))

/-- Every `SurfaceFlag` discriminant fits in a `u32`. -/
theorem surfaceFlag_val_lt (f : SurfaceFlag) : f.val < 2 ^ 32 := by
  cases f <;> decide

/-- Every `VideoFlag` discriminant fits in a `u32`. -/
theorem videoFlag_val_lt (f : VideoFlag) : f.val < 2 ^ 32 := by
  cases f <;> decide

/-- The two successive folds of `video.rs` (surface flags first, then video
flags, each ORed in from left to right) equal a single OR-fold over the
concatenated discriminant list. -/
theorem two_folds_eq_one (sf : List SurfaceFlag) (vf : List VideoFlag) :
    vf.foldl (fun flags flag => flags ||| flag.val)
      (sf.foldl (fun flags flag => flags ||| flag.val) 0) =
    (sf.map SurfaceFlag.val ++ vf.map VideoFlag.val).foldl
      (fun a v => a ||| v) 0 := by
  rw [List.foldl_append, List.foldl_map, List.foldl_map]

/-- The combined flag word passed to the native calls fits in a `u32`. -/
theorem combined_flags_lt (sf : List SurfaceFlag) (vf : List VideoFlag) :
    (sf.map SurfaceFlag.val ++ vf.map VideoFlag.val).foldl
      (fun a v => a ||| v) 0 < 2 ^ 32 := by
  refine foldl_or_lt _ 0 (by decide) ?_
  intro v hv
  rcases List.mem_append.mp hv with h | h
  · obtain ⟨f, _, rfl⟩ := List.mem_map.mp h
    exact surfaceFlag_val_lt f
  · obtain ⟨f, _, rfl⟩ := List.mem_map.mp h
    exact videoFlag_val_lt f

end NdlessSDL

namespace Claims

open NdlessTime NdlessSDL

/-- C2: each of the safe wrappers `set_video_mode`, `get_video_surface` and
`Surface::new` ORs its flag lists into one `u32`, calls the corresponding
native SDL function, returns `Err(get_error())` exactly when the returned
surface pointer is null, and otherwise returns `Ok` of a `Surface` wrapping
that pointer — owned for `Surface::new`, not owned for the other two. -/
theorem video_wrappers_null_check (env : SDLEnv) (w h bpp : Int)
    (sf : List SurfaceFlag) (vf : List VideoFlag)
    (rmask gmask bmask amask : Nat) :
    (set_video_mode env w h bpp sf vf =
      (let flags := (sf.map SurfaceFlag.val ++ vf.map VideoFlag.val).foldl
        (fun a v => a ||| v) 0
       let raw := env.setVideoModeRaw (intToC w) (intToC h) (intToC bpp) flags
       if raw = 0 then Except.error (get_error env)
       else Except.ok (Surface.mk raw false))) ∧
    (get_video_surface env =
      (let raw := env.getVideoSurfaceRaw
       if raw = 0 then Except.error (get_error env)
       else Except.ok (Surface.mk raw false))) ∧
    (Surface.new env sf w h bpp rmask gmask bmask amask =
      (let flags := (sf.map SurfaceFlag.val).foldl (fun a v => a ||| v) 0
       let raw := env.createRGBSurfaceRaw flags (intToC w) (intToC h)
         (intToC bpp) rmask gmask bmask amask
       if raw = 0 then Except.error (get_error env)
       else Except.ok (Surface.mk raw true))) := by
  refine ⟨?_, rfl, ?_⟩
  · show (if env.setVideoModeRaw (intToC w) (intToC h) (intToC bpp)
        (vf.foldl (fun flags flag => flags ||| flag.val)
          (sf.foldl (fun flags flag => flags ||| flag.val) 0)) = 0 then _ else _) = _
    rw [two_folds_eq_one]
    rfl
  · show (if env.createRGBSurfaceRaw
        (sf.foldl (fun flags flag => flags ||| flag.val) 0) (intToC w) (intToC h)
        (intToC bpp) rmask gmask bmask amask = 0 then _ else _) = _
    rw [show (sf.foldl (fun flags flag => flags ||| flag.val) 0) =
      (sf.map SurfaceFlag.val).foldl (fun a v => a ||| v) 0 from
      (List.foldl_map _ _ _ _).symm]

/-- C7: `is_video_mode_ok` ORs the surface flags and video flags into a
single `u32` word starting from `0`, passes it to `SDL_VideoModeOK`, and
returns `None` exactly when the native call returns `0`, otherwise `Some` of
the returned bits-per-pixel value. -/
theorem is_video_mode_ok_spec (env : SDLEnv) (w h bpp : Int)
    (sf : List SurfaceFlag) (vf : List VideoFlag) :
    (is_video_mode_ok env w h bpp sf vf =
      (let flags := (sf.map SurfaceFlag.val ++ vf.map VideoFlag.val).foldl
        (fun a v => a ||| v) 0
       let r := env.videoModeOKRaw (intToC w) (intToC h) (intToC bpp) flags
       if r = 0 then none else some r)) ∧
    ((sf.map SurfaceFlag.val ++ vf.map VideoFlag.val).foldl
       (fun a v => a ||| v) 0 < 2 ^ 32) ∧
    (is_video_mode_ok env w h bpp sf vf = none ↔
      env.videoModeOKRaw (intToC w) (intToC h) (intToC bpp)
        ((sf.map SurfaceFlag.val ++ vf.map VideoFlag.val).foldl
          (fun a v => a ||| v) 0) = 0) := by
  have hfold := two_folds_eq_one sf vf
  refine ⟨?_, combined_flags_lt sf vf, ?_⟩
  · show (if env.videoModeOKRaw (intToC w) (intToC h) (intToC bpp)
        (vf.foldl (fun flags flag => flags ||| flag.val)
          (sf.foldl (fun flags flag => flags ||| flag.val) 0)) = 0
        then _ else _) = _
    rw [hfold]
  · show (if env.videoModeOKRaw (intToC w) (intToC h) (intToC bpp)
        (vf.foldl (fun flags flag => flags ||| flag.val)
          (sf.foldl (fun flags flag => flags ||| flag.val) 0)) = 0
        then none else _) = none ↔ _
    rw [hfold]
    split
    · simp_all
    · simp_all

/-- C8: `Surface::get_clip_rect` always returns the all-zero rectangle,
independently of the clip rectangle actually stored in the surface, and its
only native effect is a call to `SDL_SetClipRect` with that same zero
rectangle — it sets the clip rectangle instead of reading it. -/
theorem get_clip_rect_spec (s : Surface) (clipRectOf other : Nat → Rect) :
    s.get_clip_rect clipRectOf =
      (Rect.mk 0 0 0 0, [SDLCall.setClipRect s.raw (Rect.mk 0 0 0 0)]) ∧
    s.get_clip_rect clipRectOf = s.get_clip_rect other := ⟨rfl, rfl⟩

/-- C9: `Color::to_struct` discards the alpha channel — `RGBA(r,g,b,a)` and
`RGB(r,g,b)` map to the same `SDL_Color` with `unused = 0` — and
`Color::from_struct` always produces the `RGB` variant, so the round trip
`from_struct ∘ to_struct` is the identity on every `RGB` color and on no
`RGBA` color. -/
theorem color_struct_spec (r g b a : Nat) :
    Color.to_struct (Color.RGBA r g b a) = Color.to_struct (Color.RGB r g b) ∧
    (Color.to_struct (Color.RGBA r g b a)).unused = 0 ∧
    Color.from_struct (Color.to_struct (Color.RGB r g b)) = Color.RGB r g b ∧
    Color.from_struct (Color.to_struct (Color.RGBA r g b a)) ≠
      Color.RGBA r g b a ∧
    (∀ c : SDL_Color, ∃ x y z, Color.from_struct c = Color.RGB x y z) :=
  ⟨rfl, rfl, rfl, fun h => Color.noConfusion h,
    fun c => ⟨c.r, c.g, c.b, rfl⟩⟩

end Claims

namespace NdlessSDL

/-- `filter_map` with a guard-shaped function is `filter`. -/
theorem filterMap_guard_eq_filter {α : Type} (p : α → Prop) [DecidablePred p]
    (l : List α) :
    l.filterMap (fun a => if p a then some a else none) =
      l.filter (fun a => decide (p a)) := by
  induction l with
  | nil => rfl
  | cons x xs ih =>
      by_cases h : p x <;> simp [List.filterMap_cons, List.filter_cons, h, ih]

/-- Each `VideoInfoFlag` discriminant is the single bit at `bitIndex`. -/
theorem VideoInfoFlag.val_eq_two_pow (f : VideoInfoFlag) :
    f.val = 2 ^ f.bitIndex := by
  cases f <;> rfl

/-- Masking with a single bit is nonzero exactly when that bit is set. -/
theorem and_two_pow_ne_zero_iff (b k : Nat) :
    b &&& 2 ^ k ≠ 0 ↔ b.testBit k = true := by
  rw [Nat.and_two_pow]
  cases h : b.testBit k
  · simp
  · have h2 : 2 ^ k ≠ 0 := Nat.pos_iff_ne_zero.mp (Nat.pow_pos (by decide))
    simp [h2]

/-- The fixed flag array of `wrap_video_info_flags` has no duplicates. -/
theorem videoInfoFlagOrder_nodup : videoInfoFlagOrder.Nodup := by decide

/-- Every `VideoInfoFlag` occurs in the fixed flag array. -/
theorem mem_videoInfoFlagOrder (f : VideoInfoFlag) : f ∈ videoInfoFlagOrder := by
  cases f <;> decide

end NdlessSDL

namespace Claims

open NdlessTime NdlessSDL

/-- C10: `wrap_video_info_flags` returns the flags whose bit is set in the
input word, each flag exactly when its bit is set, without duplicates, as a
subsequence of the fixed order `HWAvailable, WMAvailable, BlitHW,
BlitHWColorkey, BlitHWAlpha, BlitSW, BlitSWColorkey, BlitSWAlpha, BlitFill`. -/
theorem wrap_video_info_flags_spec (bitflags : Nat) :
    (∀ f : VideoInfoFlag, f ∈ wrap_video_info_flags bitflags ↔
      bitflags.testBit f.bitIndex = true) ∧
    (wrap_video_info_flags bitflags).Nodup ∧
    List.Sublist (wrap_video_info_flags bitflags) videoInfoFlagOrder := by
  have hfilter : wrap_video_info_flags bitflags =
      videoInfoFlagOrder.filter (fun f => decide (bitflags &&& f.val ≠ 0)) :=
    filterMap_guard_eq_filter _ _
  refine ⟨?_, ?_, ?_⟩
  · intro f
    rw [hfilter, List.mem_filter]
    simp only [mem_videoInfoFlagOrder f, true_and, decide_eq_true_eq]
    rw [VideoInfoFlag.val_eq_two_pow f, and_two_pow_ne_zero_iff]
  · rw [hfilter]
    exact videoInfoFlagOrder_nodup.filter _
  · rw [hfilter]
    exact List.filter_sublist videoInfoFlagOrder

end Claims

namespace NdlessTime

/-- If `b` is not later than `a` (both valid), adding `a − b` back to `b`
recovers `a`: the borrow difference is the elapsed duration. -/
theorem checked_add_subD (a b : Duration) (ha : a.valid) (hb : b.valid)
    (h : Duration.le a b) :
    Duration.checked_add a (Duration.subD b a) = some b := by
  rcases a with ⟨as0, an0⟩
  rcases b with ⟨bs0, bn0⟩
  obtain ⟨ha1, ha2⟩ := ha
  obtain ⟨hb1, hb2⟩ := hb
  have h' : as0 < bs0 ∨ (as0 = bs0 ∧ an0 ≤ bn0) := h
  simp only [Duration.checked_add, Duration.subD]
  split_ifs <;>
    (try simp only [Option.some.injEq, Duration.mk.injEq] at *) <;>
    omega

/-- A strictly larger valid duration has a nonzero borrow difference. -/
theorem subD_pos (a b : Duration) (hb : b.valid) (h : Duration.lt b a) :
    Duration.lt ⟨0, 0⟩ (Duration.subD a b) := by
  obtain ⟨hb1, hb2⟩ := hb
  simp only [Duration.subD, Duration.lt] at *
  split_ifs <;> simp_all <;> omega

/-- Totality of the lexicographic order: not below means at least. -/
theorem duration_not_le (a b : Duration) (h : ¬ Duration.le a b) :
    Duration.lt b a := by
  simp only [Duration.le, Duration.lt] at *
  omega

/-- The strict lexicographic order implies the reflexive one. -/
theorem duration_lt_le (a b : Duration) (h : Duration.lt a b) :
    Duration.le a b := by
  simp only [Duration.le, Duration.lt] at *
  omega

end NdlessTime

namespace Claims

/-- C1: `SystemTime::duration_since` returns `Ok(d)` with `d` the elapsed
duration from `earlier` to `t` whenever `earlier` is not later than `t`
(adding `d` to `earlier` recovers `t`), and otherwise returns `Err(e)` where
`e.duration()` is the positive duration by which `earlier` exceeds `t`
(adding it to `t` recovers `earlier`); `SystemTime::elapsed` is exactly
`SystemTime::now().duration_since(t)` at the ambient `now` value. -/
theorem systemTime_duration_since_spec
    (t earlier : NdlessTime.SystemTime)
    (ht : t.inner.t.valid) (he : earlier.inner.t.valid) :
    (t.duration_since earlier =
      if NdlessTime.SystemTime.le earlier t then
        Except.ok (NdlessTime.Duration.subD t.inner.t earlier.inner.t)
      else
        Except.error (NdlessTime.SystemTimeError.mk
          (NdlessTime.Duration.subD earlier.inner.t t.inner.t))) ∧
    (NdlessTime.SystemTime.le earlier t →
      earlier.checked_add (NdlessTime.Duration.subD t.inner.t earlier.inner.t) =
        some t) ∧
    (¬ NdlessTime.SystemTime.le earlier t →
      (NdlessTime.SystemTimeError.mk
        (NdlessTime.Duration.subD earlier.inner.t t.inner.t)).duration =
          NdlessTime.Duration.subD earlier.inner.t t.inner.t ∧
      NdlessTime.Duration.lt ⟨0, 0⟩
        (NdlessTime.Duration.subD earlier.inner.t t.inner.t) ∧
      t.checked_add (NdlessTime.Duration.subD earlier.inner.t t.inner.t) =
        some earlier) ∧
    (∀ nowVal : NdlessTime.SystemTime,
      NdlessTime.SystemTime.elapsed nowVal t = nowVal.duration_since t) := by
  refine ⟨?_, ?_, ?_, fun nowVal => rfl⟩
  · unfold NdlessTime.SystemTime.le NdlessTime.SystemTime.duration_since
      NdlessTime.SysSystemTime.sub_time
    split_ifs <;> rfl
  · intro h
    have h' : NdlessTime.Duration.le earlier.inner.t t.inner.t := h
    show Option.map NdlessTime.SystemTime.mk (Option.map NdlessTime.SysSystemTime.mk
      (NdlessTime.Duration.checked_add earlier.inner.t
        (NdlessTime.Duration.subD t.inner.t earlier.inner.t))) = some t
    rw [NdlessTime.checked_add_subD _ _ he ht h']
    rfl
  · intro h
    have h' : ¬ NdlessTime.Duration.le earlier.inner.t t.inner.t := h
    have hlt := NdlessTime.duration_not_le _ _ h'
    refine ⟨rfl, NdlessTime.subD_pos _ _ ht hlt, ?_⟩
    show Option.map NdlessTime.SystemTime.mk (Option.map NdlessTime.SysSystemTime.mk
      (NdlessTime.Duration.checked_add t.inner.t
        (NdlessTime.Duration.subD earlier.inner.t t.inner.t))) = some earlier
    rw [NdlessTime.checked_add_subD _ _ ht he
      (NdlessTime.duration_lt_le _ _ hlt)]
    rfl

/-- Witness for C1 at `t = 5s + 3ns`, `earlier = 2s + 7ns`. -/
theorem systemTime_duration_since_spec_witness :
    (NdlessTime.SystemTime.mk ⟨⟨5, 3⟩⟩).duration_since
        (NdlessTime.SystemTime.mk ⟨⟨2, 7⟩⟩) =
      (if NdlessTime.SystemTime.le (NdlessTime.SystemTime.mk ⟨⟨2, 7⟩⟩)
          (NdlessTime.SystemTime.mk ⟨⟨5, 3⟩⟩) then
        Except.ok (NdlessTime.Duration.subD ⟨5, 3⟩ ⟨2, 7⟩)
      else
        Except.error (NdlessTime.SystemTimeError.mk
          (NdlessTime.Duration.subD ⟨2, 7⟩ ⟨5, 3⟩))) ∧
    (NdlessTime.SystemTime.le (NdlessTime.SystemTime.mk ⟨⟨2, 7⟩⟩)
        (NdlessTime.SystemTime.mk ⟨⟨5, 3⟩⟩) →
      (NdlessTime.SystemTime.mk ⟨⟨2, 7⟩⟩).checked_add
          (NdlessTime.Duration.subD ⟨5, 3⟩ ⟨2, 7⟩) =
        some (NdlessTime.SystemTime.mk ⟨⟨5, 3⟩⟩)) ∧
    (¬ NdlessTime.SystemTime.le (NdlessTime.SystemTime.mk ⟨⟨2, 7⟩⟩)
        (NdlessTime.SystemTime.mk ⟨⟨5, 3⟩⟩) →
      (NdlessTime.SystemTimeError.mk
        (NdlessTime.Duration.subD ⟨2, 7⟩ ⟨5, 3⟩)).duration =
          NdlessTime.Duration.subD ⟨2, 7⟩ ⟨5, 3⟩ ∧
      NdlessTime.Duration.lt ⟨0, 0⟩ (NdlessTime.Duration.subD ⟨2, 7⟩ ⟨5, 3⟩) ∧
      (NdlessTime.SystemTime.mk ⟨⟨5, 3⟩⟩).checked_add
          (NdlessTime.Duration.subD ⟨2, 7⟩ ⟨5, 3⟩) =
        some (NdlessTime.SystemTime.mk ⟨⟨2, 7⟩⟩)) ∧
    (∀ nowVal : NdlessTime.SystemTime,
      NdlessTime.SystemTime.elapsed nowVal (NdlessTime.SystemTime.mk ⟨⟨5, 3⟩⟩) =
        nowVal.duration_since (NdlessTime.SystemTime.mk ⟨⟨5, 3⟩⟩)) :=
  systemTime_duration_since_spec (NdlessTime.SystemTime.mk ⟨⟨5, 3⟩⟩)
    (NdlessTime.SystemTime.mk ⟨⟨2, 7⟩⟩) (by decide) (by decide)

/-- C3: `Instant::checked_duration_since` returns `Some(d)` with `d` the
elapsed duration (adding it back to `earlier` recovers `self`) exactly when
`earlier` is not later than `self`, and `None` otherwise;
`Instant::duration_since` computes the same option, so under the precondition
that `earlier` is not later than `self` it returns that same duration and its
panic branch is unreachable. -/
theorem instant_duration_since_spec (self earlier : NdlessTime.Instant)
    (hs : self.inner.t.valid) (he : earlier.inner.t.valid) :
    (self.checked_duration_since earlier =
      if NdlessTime.Instant.le earlier self then
        some (NdlessTime.Duration.subD self.inner.t earlier.inner.t)
      else none) ∧
    (self.duration_since earlier = self.checked_duration_since earlier) ∧
    (NdlessTime.Instant.le earlier self →
      self.duration_since earlier =
        some (NdlessTime.Duration.subD self.inner.t earlier.inner.t) ∧
      earlier.checked_add
        (NdlessTime.Duration.subD self.inner.t earlier.inner.t) = some self) := by
  refine ⟨?_, rfl, ?_⟩
  · unfold NdlessTime.Instant.le NdlessTime.Instant.checked_duration_since
      NdlessTime.SysInstant.checked_sub_instant
    rfl
  · intro h
    have h' : NdlessTime.Duration.le earlier.inner.t self.inner.t := h
    constructor
    · show (if NdlessTime.Duration.le earlier.inner.t self.inner.t then
          some (NdlessTime.Duration.subD self.inner.t earlier.inner.t)
        else none) = _
      rw [if_pos h']
    · show Option.map NdlessTime.Instant.mk (Option.map NdlessTime.SysInstant.mk
        (NdlessTime.Duration.checked_add earlier.inner.t
          (NdlessTime.Duration.subD self.inner.t earlier.inner.t))) = some self
      rw [NdlessTime.checked_add_subD _ _ he hs h']
      rfl

/-- Witness for C3 at `self = 9s + 2ns`, `earlier = 4s + 8ns`. -/
theorem instant_duration_since_spec_witness :
    ((NdlessTime.Instant.mk ⟨⟨9, 2⟩⟩).checked_duration_since
        (NdlessTime.Instant.mk ⟨⟨4, 8⟩⟩) =
      if NdlessTime.Instant.le (NdlessTime.Instant.mk ⟨⟨4, 8⟩⟩)
          (NdlessTime.Instant.mk ⟨⟨9, 2⟩⟩) then
        some (NdlessTime.Duration.subD ⟨9, 2⟩ ⟨4, 8⟩)
      else none) ∧
    ((NdlessTime.Instant.mk ⟨⟨9, 2⟩⟩).duration_since
        (NdlessTime.Instant.mk ⟨⟨4, 8⟩⟩) =
      (NdlessTime.Instant.mk ⟨⟨9, 2⟩⟩).checked_duration_since
        (NdlessTime.Instant.mk ⟨⟨4, 8⟩⟩)) ∧
    (NdlessTime.Instant.le (NdlessTime.Instant.mk ⟨⟨4, 8⟩⟩)
        (NdlessTime.Instant.mk ⟨⟨9, 2⟩⟩) →
      (NdlessTime.Instant.mk ⟨⟨9, 2⟩⟩).duration_since
          (NdlessTime.Instant.mk ⟨⟨4, 8⟩⟩) =
        some (NdlessTime.Duration.subD ⟨9, 2⟩ ⟨4, 8⟩) ∧
      (NdlessTime.Instant.mk ⟨⟨4, 8⟩⟩).checked_add
          (NdlessTime.Duration.subD ⟨9, 2⟩ ⟨4, 8⟩) =
        some (NdlessTime.Instant.mk ⟨⟨9, 2⟩⟩)) :=
  instant_duration_since_spec (NdlessTime.Instant.mk ⟨⟨9, 2⟩⟩)
    (NdlessTime.Instant.mk ⟨⟨4, 8⟩⟩) (by decide) (by decide)

/-- C4: `Instant::saturating_duration_since` is total — it always returns a
duration — and returns the value of `checked_duration_since` whenever that is
`Some`, and the zero duration `Duration::new(0, 0)` whenever `earlier` is
later than `self`. -/
theorem saturating_duration_since_spec (self earlier : NdlessTime.Instant) :
    (self.saturating_duration_since earlier =
      (self.checked_duration_since earlier).getD ⟨0, 0⟩) ∧
    (∀ d, self.checked_duration_since earlier = some d →
      self.saturating_duration_since earlier = d) ∧
    (¬ NdlessTime.Instant.le earlier self →
      self.checked_duration_since earlier = none ∧
      self.saturating_duration_since earlier = ⟨0, 0⟩) := by
  refine ⟨rfl, ?_, ?_⟩
  · intro d hd
    unfold NdlessTime.Instant.saturating_duration_since
    rw [hd]
    rfl
  · intro h
    have h' : ¬ NdlessTime.Duration.le earlier.inner.t self.inner.t := h
    have hnone : self.checked_duration_since earlier = none := by
      show (if NdlessTime.Duration.le earlier.inner.t self.inner.t then
          some (NdlessTime.Duration.subD self.inner.t earlier.inner.t)
        else none) = none
      rw [if_neg h']
    refine ⟨hnone, ?_⟩
    unfold NdlessTime.Instant.saturating_duration_since
    rw [hnone]
    rfl

/-- Witness for C4 at `self = 1s`, `earlier = 3s` (the saturating case). -/
theorem saturating_duration_since_spec_witness :
    ((NdlessTime.Instant.mk ⟨⟨1, 0⟩⟩).saturating_duration_since
        (NdlessTime.Instant.mk ⟨⟨3, 0⟩⟩) =
      ((NdlessTime.Instant.mk ⟨⟨1, 0⟩⟩).checked_duration_since
        (NdlessTime.Instant.mk ⟨⟨3, 0⟩⟩)).getD ⟨0, 0⟩) ∧
    (∀ d, (NdlessTime.Instant.mk ⟨⟨1, 0⟩⟩).checked_duration_since
        (NdlessTime.Instant.mk ⟨⟨3, 0⟩⟩) = some d →
      (NdlessTime.Instant.mk ⟨⟨1, 0⟩⟩).saturating_duration_since
        (NdlessTime.Instant.mk ⟨⟨3, 0⟩⟩) = d) ∧
    (¬ NdlessTime.Instant.le (NdlessTime.Instant.mk ⟨⟨3, 0⟩⟩)
        (NdlessTime.Instant.mk ⟨⟨1, 0⟩⟩) →
      (NdlessTime.Instant.mk ⟨⟨1, 0⟩⟩).checked_duration_since
        (NdlessTime.Instant.mk ⟨⟨3, 0⟩⟩) = none ∧
      (NdlessTime.Instant.mk ⟨⟨1, 0⟩⟩).saturating_duration_since
        (NdlessTime.Instant.mk ⟨⟨3, 0⟩⟩) = ⟨0, 0⟩) :=
  saturating_duration_since_spec (NdlessTime.Instant.mk ⟨⟨1, 0⟩⟩)
    (NdlessTime.Instant.mk ⟨⟨3, 0⟩⟩)

/-- C5: for both `Instant` and `SystemTime`, the `+` operator returns the
value inside `checked_add` and panics (embedded as `none`) exactly when
`checked_add` is `None`; `-` likewise delegates to `checked_sub`; and the
`+=`/`-=` operators assign `t + d` / `t - d`. Both outcomes are realized:
adding one second at the `u64` boundary overflows, and adding one second to
the origin succeeds. -/
theorem add_sub_operators_spec (i : NdlessTime.Instant)
    (s : NdlessTime.SystemTime) (d : NdlessTime.Duration) :
    (i.addDuration d = i.checked_add d) ∧
    (i.subDuration d = i.checked_sub d) ∧
    (i.addAssignDuration d = i.addDuration d) ∧
    (i.subAssignDuration d = i.subDuration d) ∧
    (s.addDuration d = s.checked_add d) ∧
    (s.subDuration d = s.checked_sub d) ∧
    (s.addAssignDuration d = s.addDuration d) ∧
    (s.subAssignDuration d = s.subDuration d) ∧
    ((NdlessTime.Instant.mk ⟨⟨NdlessTime.u64Size - 1, 0⟩⟩).addDuration ⟨1, 0⟩ =
      none) ∧
    ((NdlessTime.Instant.mk ⟨⟨0, 0⟩⟩).addDuration ⟨1, 0⟩ =
      some (NdlessTime.Instant.mk ⟨⟨1, 0⟩⟩)) :=
  ⟨rfl, rfl, rfl, rfl, rfl, rfl, rfl, rfl, by decide, by decide⟩

/-- C6: `Instant` measures a monotonically nondecreasing clock: when `a` is
returned by the `i`-th call of `Instant::now` and `b` by a later `j`-th call
on the same clock trace, `a` is not later than `b`, so
`b.checked_duration_since(a)` returns `Some` and `b.duration_since(a)` takes
its non-panicking branch. -/
theorem instant_now_monotone_spec (c : NdlessTime.ClockTrace) (i j : Nat)
    (h : i ≤ j) :
    NdlessTime.Instant.le (NdlessTime.Instant.nowAt c i)
      (NdlessTime.Instant.nowAt c j) ∧
    (NdlessTime.Instant.nowAt c j).checked_duration_since
        (NdlessTime.Instant.nowAt c i) =
      some (NdlessTime.Duration.subD (c.read j) (c.read i)) ∧
    (NdlessTime.Instant.nowAt c j).duration_since
        (NdlessTime.Instant.nowAt c i) =
      some (NdlessTime.Duration.subD (c.read j) (c.read i)) := by
  have hle : NdlessTime.Duration.le (c.read i) (c.read j) := c.mono i j h
  refine ⟨hle, ?_, ?_⟩ <;>
  · show (if NdlessTime.Duration.le (c.read i) (c.read j) then
        some (NdlessTime.Duration.subD (c.read j) (c.read i))
      else none) = _
    rw [if_pos hle]

/-- A concrete monotone clock trace whose every reading is zero. -/
def constantClockTrace : NdlessTime.ClockTrace :=
  ⟨fun _ => ⟨0, 0⟩, fun _ _ _ => Or.inr ⟨rfl, Nat.le_refl 0⟩⟩

/-- Witness for C6 on the constant clock trace, calls `0` and `1`. -/
theorem instant_now_monotone_spec_witness :
    NdlessTime.Instant.le (NdlessTime.Instant.nowAt constantClockTrace 0)
      (NdlessTime.Instant.nowAt constantClockTrace 1) ∧
    (NdlessTime.Instant.nowAt constantClockTrace 1).checked_duration_since
        (NdlessTime.Instant.nowAt constantClockTrace 0) =
      some (NdlessTime.Duration.subD (constantClockTrace.read 1)
        (constantClockTrace.read 0)) ∧
    (NdlessTime.Instant.nowAt constantClockTrace 1).duration_since
        (NdlessTime.Instant.nowAt constantClockTrace 0) =
      some (NdlessTime.Duration.subD (constantClockTrace.read 1)
        (constantClockTrace.read 0)) :=
  instant_now_monotone_spec constantClockTrace 0 1 (Nat.zero_le 1)

end Claims
